import Mathlib

/-!
Verification development for the MC88100 subset behavioral simulator
(CPSC 3300).  The repository holds two near-identical C source variants:
a plain instruction simulator and one extended with a write-back data
cache directory.  This file shallowly embeds both cores and the cache
directory state machine, and proves properties of the embedding.

Machine words are modelled as bit patterns: natural numbers below
2^32 = 4294967296.  Signed C `int` arithmetic is recovered through
`toSigned` (two's complement reading) and `norm32` (wrap back to a
pattern).  Memory is a flat word-indexed store; fallible operations
(assertion failures, fatal decode errors) return `Except Fault`.
-/

namespace Sim

/-- Interpret a 32-bit pattern (a natural number below 2^32) as a signed
two's complement value. -/
def toSigned (v : Nat) : Int :=
  if v < 2147483648 then (v : Int) else (v : Int) - 4294967296

/-- Reduce an integer modulo 2^32 back to a 32-bit pattern. -/
def norm32 (x : Int) : Nat := (x % 4294967296).toNat

/-- C `int` addition of two 32-bit patterns (wrap-around). -/
def add32 (a b : Nat) : Nat := (a + b) % 4294967296

/-- C `int` subtraction of two 32-bit patterns (wrap-around). -/
def sub32 (a b : Nat) : Nat := norm32 ((a : Int) - (b : Int))

/-- C left shift on a 32-bit pattern, truncated to 32 bits. -/
def shl32 (v n : Nat) : Nat := (v <<< n) % 4294967296

/-- C arithmetic (signed) right shift of a 32-bit pattern: floor
division of the signed value by 2^n, re-encoded as a pattern.  The
divisor 2^n is positive, and `Int` division in Lean rounds so that the
remainder is nonnegative, which is exactly floor division here. -/
def ashr32 (v n : Nat) : Nat := norm32 (toSigned v / (2 ^ n : Int))

/-- Sign extension of a 16-bit field, the C idiom (d16 << 16) >> 16. -/
def sext16 (x : Nat) : Int :=
  if x < 32768 then (x : Int) else (x : Int) - 65536

/-- Sign extension of a 26-bit field, the C idiom (d26 << 6) >> 6. -/
def sext26 (x : Nat) : Int :=
  if x < 33554432 then (x : Int) else (x : Int) - 67108864

/-- Pointwise update of a one-index table. -/
def updFn (f : Nat → Nat) (i v : Nat) : Nat → Nat :=
  fun j => if j = i then v else f j

/-- Pointwise update of a two-index table (bank, line). -/
def upd2 (f : Nat → Nat → Nat) (b i v : Nat) : Nat → Nat → Nat :=
  fun b2 j => if b2 = b ∧ j = i then v else f b2 j

/-!  Cache directory (from the cache variant of sim.c).  The arrays
`valid`, `dirty`, `tag` are indexed by bank (0 or 1) and line index
(0..63); `lru` keeps one replacement word per set. -/

/-- Cache directory state: the valid/dirty/tag bits per bank and line,
the per-set replacement word, and the five event counters. -/
structure Cache where
  valid : Nat → Nat → Nat
  dirty : Nat → Nat → Nat
  tag : Nat → Nat → Nat
  lru : Nat → Nat
  cache_reads : Nat
  cache_writes : Nat
  hits : Nat
  misses : Nat
  write_backs : Nat

/-- Index bits of an address: (address >> 3) & 0x3f, as in cache_access. -/
def setIndex (address : Nat) : Nat := (address >>> 3) &&& 63

/-- Tag bits of an address: address >> 9, as in cache_access. -/
def addrTag (address : Nat) : Nat := address >>> 9

/-- cache_init: every line invalid, clean, zero tag; counters zero. -/
def cache_init : Cache :=
  ⟨fun _ _ => 0, fun _ _ => 0, fun _ _ => 0, fun _ => 0, 0, 0, 0, 0, 0⟩

/-- Common tail of cache_access: record the serviced bank in the set's
replacement state, then set the dirty bit on a write. -/
def cacheTail (c : Cache) (bank idx ty : Nat) : Cache :=
  let c5 := { c with lru := updFn c.lru idx bank }
  if ty = 1 then { c5 with dirty := upd2 c5.dirty bank idx 1 } else c5

/-- cache_access from the cache variant: count the access, probe each
bank of the indexed set, on a miss choose a victim bank (an invalid
bank first, otherwise the bank the replacement word does not name),
count a write-back if the victim is valid and dirty, and install the
new tag; finally update replacement state and the dirty bit. -/
def cache_access (c : Cache) (address ty : Nat) : Cache :=
  let c0 := if ty = 0 then { c with cache_reads := c.cache_reads + 1 }
            else { c with cache_writes := c.cache_writes + 1 }
  let idx := setIndex address
  let atag := addrTag address
  if c0.valid 0 idx ≠ 0 ∧ atag = c0.tag 0 idx then
    cacheTail { c0 with hits := c0.hits + 1 } 0 idx ty
  else if c0.valid 1 idx ≠ 0 ∧ atag = c0.tag 1 idx then
    cacheTail { c0 with hits := c0.hits + 1 } 1 idx ty
  else
    let c2 := { c0 with misses := c0.misses + 1 }
    let bank := if c2.valid 0 idx = 0 then 0
                else if c2.valid 1 idx = 0 then 1
                else if c2.lru idx ≠ 0 then 0 else 1
    let c3 := if c2.valid bank idx ≠ 0 ∧ c2.dirty bank idx ≠ 0 then
                { c2 with write_backs := c2.write_backs + 1 }
              else c2
    let c4 := { c3 with valid := upd2 c3.valid bank idx 1,
                        dirty := upd2 c3.dirty bank idx 0,
                        tag := upd2 c3.tag bank idx atag }
    cacheTail c4 bank idx ty

/-- The victim way on a miss, as the specification words it: way 0 if
way 0 is invalid, else way 1 if way 1 is invalid, else the way other
than the most recently serviced way recorded in the replacement state. -/
def victimWay (c : Cache) (address : Nat) : Nat :=
  if c.valid 0 (setIndex address) = 0 then 0
  else if c.valid 1 (setIndex address) = 0 then 1
  else 1 - c.lru (setIndex address)

/-!  Processor core (identical text in both source variants). -/

/-- Fatal termination causes of the simulator process. -/
inductive Fault where
  | unknownOp
  | boundsViolation
  | zeroDisplacement
deriving DecidableEq

/-- Processor, memory and statistics state of the core. -/
structure CoreState where
  reg : Nat → Nat
  mem : Int → Nat
  xip : Nat
  fip : Nat
  haltFlag : Bool
  instFetches : Nat
  memoryReads : Nat
  memoryWrites : Nat
  branches : Nat
  takenBranches : Nat

/-- Decoded instruction fields, as produced by decode(). -/
structure Fields where
  op1 : Nat
  op2 : Nat
  d : Nat
  s1 : Nat
  s2 : Nat
  imm16 : Nat
  scaled : Nat

/-- decode: extract the fixed bit fields of the instruction word. -/
def decode (ir : Nat) : Fields :=
  ⟨(ir >>> 26) &&& 63, (ir >>> 10) &&& 63, (ir >>> 21) &&& 31,
   (ir >>> 16) &&& 31, ir &&& 31, ir &&& 65535, (ir >>> 9) &&& 1⟩

/-- Word index of a byte address: the C expression eff_addr >> 2 on a
signed int, that is the floor of the signed value divided by 4. -/
def wordIdx (a : Nat) : Int := toSigned a / 4

/-- read_mem: bounds-checked read of the word containing the effective
byte address into a register (asserts 0 <= word index < 256 Ki words). -/
def read_mem (s : CoreState) (effAddr ri : Nat) : Except Fault CoreState :=
  if 0 ≤ wordIdx effAddr ∧ wordIdx effAddr < 262144 then
    .ok { s with reg := updFn s.reg ri (s.mem (wordIdx effAddr)),
                 memoryReads := s.memoryReads + 1 }
  else .error .boundsViolation

/-- Pointwise update of the word memory. -/
def updMemF (m : Int → Nat) (i : Int) (v : Nat) : Int → Nat :=
  fun j => if j = i then v else m j

/-- write_mem: bounds-checked write of a register into the word
containing the effective byte address. -/
def write_mem (s : CoreState) (effAddr ri : Nat) : Except Fault CoreState :=
  if 0 ≤ wordIdx effAddr ∧ wordIdx effAddr < 262144 then
    .ok { s with mem := updMemF s.mem (wordIdx effAddr) (s.reg ri),
                 memoryWrites := s.memoryWrites + 1 }
  else .error .boundsViolation

/-- halt: set the halt flag. -/
def halt (s : CoreState) : CoreState := { s with haltFlag := true }

/-- imm_ld: load through reg[s1] + zero-extended imm16. -/
def imm_ld (s : CoreState) (d s1 imm16 : Nat) : Except Fault CoreState :=
  read_mem s (add32 (s.reg s1) imm16) d

/-- imm_st: store through reg[s1] + zero-extended imm16. -/
def imm_st (s : CoreState) (d s1 imm16 : Nat) : Except Fault CoreState :=
  write_mem s (add32 (s.reg s1) imm16) d

/-- imm_lda: reg[d] = reg[s1] + imm16 (no memory access). -/
def imm_lda (s : CoreState) (d s1 imm16 : Nat) : CoreState :=
  { s with reg := updFn s.reg d (add32 (s.reg s1) imm16) }

/-- imm_add: reg[d] = reg[s1] + imm16. -/
def imm_add (s : CoreState) (d s1 imm16 : Nat) : CoreState :=
  { s with reg := updFn s.reg d (add32 (s.reg s1) imm16) }

/-- imm_sub: reg[d] = reg[s1] - imm16. -/
def imm_sub (s : CoreState) (d s1 imm16 : Nat) : CoreState :=
  { s with reg := updFn s.reg d (sub32 (s.reg s1) imm16) }

/-- br: unconditional branch, fip = xip + 4 * sign-extended 26-bit
displacement; asserts the raw displacement field is non-zero. -/
def br (s : CoreState) (ir : Nat) : Except Fault CoreState :=
  if ir &&& 67108863 = 0 then .error .zeroDisplacement
  else .ok { s with fip := norm32 ((s.xip : Int) + 4 * sext26 (ir &&& 67108863)),
                    branches := s.branches + 1,
                    takenBranches := s.takenBranches + 1 }

/-- bcnd: conditional branch.  The flag packs the sign bit of reg[s1]
with the test ((unsigned)reg[s1] << 1) == 0; the mask in the d field is
probed at bit `flag`; asserts the raw displacement is non-zero. -/
def bcnd (s : CoreState) (d s1 ir : Nat) : Except Fault CoreState :=
  if ir &&& 65535 = 0 then .error .zeroDisplacement
  else
    let sign := s.reg s1 >>> 31
    let zflag : Nat := if (s.reg s1 <<< 1) % 4294967296 = 0 then 1 else 0
    let flag := (sign <<< 1) ||| zflag
    let sb := { s with branches := s.branches + 1 }
    if 1 &&& (d >>> flag) = 1 then
      .ok { sb with fip := norm32 ((s.xip : Int) + 4 * sext16 (ir &&& 65535)),
                    takenBranches := sb.takenBranches + 1 }
    else .ok sb

/-- ext: arithmetic right shift (signed int >> in C). -/
def ext (s : CoreState) (d s1 s2 : Nat) : CoreState :=
  { s with reg := updFn s.reg d (ashr32 (s.reg s1) s2) }

/-- extu: logical right shift (through an unsigned temporary in C). -/
def extu (s : CoreState) (d s1 s2 : Nat) : CoreState :=
  { s with reg := updFn s.reg d (s.reg s1 >>> s2) }

/-- mak: left shift. -/
def mak (s : CoreState) (d s1 s2 : Nat) : CoreState :=
  { s with reg := updFn s.reg d (shl32 (s.reg s1) s2) }

/-- rot: reg[d] = (reg[s1] << (32 - s2)) | (reg[s1] >> s2), where the
right shift is the C signed (arithmetic) shift because reg is int. -/
def rot (s : CoreState) (d s1 s2 : Nat) : CoreState :=
  { s with reg := updFn s.reg d (shl32 (s.reg s1) (32 - s2) ||| ashr32 (s.reg s1) s2) }

/-- ld (register forms): scaled or unscaled indexed load. -/
def ld (s : CoreState) (d s1 s2 scaled : Nat) : Except Fault CoreState :=
  if scaled ≠ 0 then read_mem s (add32 (s.reg s1) (shl32 (s.reg s2) 2)) d
  else read_mem s (add32 (s.reg s1) (s.reg s2)) d

/-- st (register forms): scaled or unscaled indexed store. -/
def st (s : CoreState) (d s1 s2 scaled : Nat) : Except Fault CoreState :=
  if scaled ≠ 0 then write_mem s (add32 (s.reg s1) (shl32 (s.reg s2) 2)) d
  else write_mem s (add32 (s.reg s1) (s.reg s2)) d

/-- lda (register forms): effective address into reg[d], no access. -/
def lda (s : CoreState) (d s1 s2 scaled : Nat) : CoreState :=
  if scaled ≠ 0 then
    { s with reg := updFn s.reg d (add32 (s.reg s1) (shl32 (s.reg s2) 2)) }
  else
    { s with reg := updFn s.reg d (add32 (s.reg s1) (s.reg s2)) }

/-- add (register form). -/
def add (s : CoreState) (d s1 s2 : Nat) : CoreState :=
  { s with reg := updFn s.reg d (add32 (s.reg s1) (s.reg s2)) }

/-- sub (register form). -/
def sub (s : CoreState) (d s1 s2 : Nat) : CoreState :=
  { s with reg := updFn s.reg d (sub32 (s.reg s1) (s.reg s2)) }

/-- The opcode dispatch of the cacheless variant's main loop. -/
def exec (s : CoreState) (ir : Nat) (f : Fields) : Except Fault CoreState :=
  if f.op1 = 0 then .ok (halt s)
  else if f.op1 = 5 then imm_ld s f.d f.s1 f.imm16
  else if f.op1 = 9 then imm_st s f.d f.s1 f.imm16
  else if f.op1 = 13 then .ok (imm_lda s f.d f.s1 f.imm16)
  else if f.op1 = 28 then .ok (imm_add s f.d f.s1 f.imm16)
  else if f.op1 = 29 then .ok (imm_sub s f.d f.s1 f.imm16)
  else if f.op1 = 48 then br s ir
  else if f.op1 = 58 then bcnd s f.d f.s1 ir
  else if f.op1 = 60 then
    (if f.op2 = 36 then .ok (ext s f.d f.s1 f.s2)
     else if f.op2 = 38 then .ok (extu s f.d f.s1 f.s2)
     else if f.op2 = 40 then .ok (mak s f.d f.s1 f.s2)
     else if f.op2 = 42 then .ok (rot s f.d f.s1 f.s2)
     else .error .unknownOp)
  else if f.op1 = 61 then
    (if f.op2 = 5 then ld s f.d f.s1 f.s2 f.scaled
     else if f.op2 = 9 then st s f.d f.s1 f.s2 f.scaled
     else if f.op2 = 13 then .ok (lda s f.d f.s1 f.s2 f.scaled)
     else if f.op2 = 28 then .ok (add s f.d f.s1 f.s2)
     else if f.op2 = 29 then .ok (sub s f.d f.s1 f.s2)
     else .error .unknownOp)
  else .error .unknownOp

/-- The instruction word fetched at the current fetch pointer. -/
def fetchedIR (s : CoreState) : Nat := s.mem (wordIdx s.fip)

/-- The loop epilogue reg[0] = 0 that re-zeroes register 0. -/
def force_r0 (s : CoreState) : CoreState := { s with reg := updFn s.reg 0 0 }

/-- The fetch phase of the loop: xip takes the old fip, fip advances by
4, and the fetch counter increments. -/
def preStep (s : CoreState) : CoreState :=
  { s with xip := s.fip, fip := add32 s.fip 4, instFetches := s.instFetches + 1 }

/-- One iteration of the cacheless main loop: fetch, advance pointers,
count the fetch, decode, dispatch, re-zero register 0. -/
def step (s : CoreState) : Except Fault CoreState :=
  (exec (preStep s) (fetchedIR s) (decode (fetchedIR s))).map force_r0

/-- Fuelled main loop of the cacheless variant: stop when the halt flag
is set (checked before each fetch, as in the while loop). -/
def run : Nat → CoreState → Except Fault CoreState
  | 0, s => .ok s
  | Nat.succ n, s => if s.haltFlag then .ok s else (step s) >>= run n

/-!  Loader and whole-process behavior (cacheless variant's main). -/

/-- Outcome of get_mem: a populated memory, or the overflow exit
carrying the process exit status passed to exit(). -/
inductive LoadResult where
  | loaded (m : Int → Nat)
  | tooMany (code : Int)

/-- Working loop of get_mem: store each input word at the next index,
but refuse (printing a message and calling exit(0)) once the running
count exceeds INPUT_WORD_LIMIT = 255 before a store. -/
def get_mem_go : (Int → Nat) → Nat → List Nat → LoadResult
  | m, _, [] => .loaded m
  | m, count, w :: ws =>
    if 255 < count then .tooMany 0
    else get_mem_go (updMemF m (count : Int) w) (count + 1) ws

/-- get_mem: load the hex words from the input into a zeroed memory. -/
def get_mem (input : List Nat) : LoadResult := get_mem_go (fun _ => 0) 0 input

/-- Initial core state over a given memory: all registers zero, both
instruction pointers zero, halt flag clear, counters zero. -/
def initCore (m : Int → Nat) : CoreState :=
  ⟨fun _ => 0, m, 0, 0, false, 0, 0, 0, 0, 0⟩

/-- Whole-process result of the cacheless variant: either the load
overflow exit or the result of the execution loop. -/
inductive MainResult where
  | overflow (code : Int)
  | runResult (r : Except Fault CoreState)

/-- main of the cacheless variant: load memory, then run the loop. -/
def mainSim (input : List Nat) (fuel : Nat) : MainResult :=
  match get_mem input with
  | .tooMany code => .overflow code
  | .loaded m => .runResult (run fuel (initCore m))

/-- The four statistics the final report prints first (instruction
fetches, data words read, data words written, branches executed),
available only when the run reached the halt state. -/
def reportStats : MainResult → Option (Nat × Nat × Nat × Nat)
  | .runResult (.ok s) =>
    if s.haltFlag then
      some (s.instFetches, s.memoryReads, s.memoryWrites, s.branches)
    else none
  | _ => none

/-- The exit status when the loader refused the input, if it did. -/
def overflowCode : MainResult → Option Int
  | .overflow code => some code
  | _ => none

/-!  The cache-enabled variant: same core, but the four memory-access
handlers additionally consult the cache directory, and the state
carries the directory alongside the core. -/

/-- Combined state of the cache-enabled variant. -/
structure CState where
  core : CoreState
  cache : Cache

/-- Attach an unchanged cache to a core outcome (handlers that do not
touch the cache). -/
def wrapK (k : Cache) (r : Except Fault CoreState) : Except Fault CState :=
  r.map (fun t => ⟨t, k⟩)

/-- imm_ld of the cache variant: the read, then cache_access(addr, 0). -/
def imm_ldC (s : CoreState) (k : Cache) (d s1 imm16 : Nat) : Except Fault CState :=
  (read_mem s (add32 (s.reg s1) imm16) d).map
    (fun t => ⟨t, cache_access k (add32 (s.reg s1) imm16) 0⟩)

/-- imm_st of the cache variant: the write, then cache_access(addr, 1). -/
def imm_stC (s : CoreState) (k : Cache) (d s1 imm16 : Nat) : Except Fault CState :=
  (write_mem s (add32 (s.reg s1) imm16) d).map
    (fun t => ⟨t, cache_access k (add32 (s.reg s1) imm16) 1⟩)

/-- ld of the cache variant. -/
def ldC (s : CoreState) (k : Cache) (d s1 s2 scaled : Nat) : Except Fault CState :=
  if scaled ≠ 0 then
    (read_mem s (add32 (s.reg s1) (shl32 (s.reg s2) 2)) d).map
      (fun t => ⟨t, cache_access k (add32 (s.reg s1) (shl32 (s.reg s2) 2)) 0⟩)
  else
    (read_mem s (add32 (s.reg s1) (s.reg s2)) d).map
      (fun t => ⟨t, cache_access k (add32 (s.reg s1) (s.reg s2)) 0⟩)

/-- st of the cache variant. -/
def stC (s : CoreState) (k : Cache) (d s1 s2 scaled : Nat) : Except Fault CState :=
  if scaled ≠ 0 then
    (write_mem s (add32 (s.reg s1) (shl32 (s.reg s2) 2)) d).map
      (fun t => ⟨t, cache_access k (add32 (s.reg s1) (shl32 (s.reg s2) 2)) 1⟩)
  else
    (write_mem s (add32 (s.reg s1) (s.reg s2)) d).map
      (fun t => ⟨t, cache_access k (add32 (s.reg s1) (s.reg s2)) 1⟩)

/-- The opcode dispatch of the cache variant's main loop. -/
def execC (s : CoreState) (k : Cache) (ir : Nat) (f : Fields) : Except Fault CState :=
  if f.op1 = 0 then .ok ⟨halt s, k⟩
  else if f.op1 = 5 then imm_ldC s k f.d f.s1 f.imm16
  else if f.op1 = 9 then imm_stC s k f.d f.s1 f.imm16
  else if f.op1 = 13 then .ok ⟨imm_lda s f.d f.s1 f.imm16, k⟩
  else if f.op1 = 28 then .ok ⟨imm_add s f.d f.s1 f.imm16, k⟩
  else if f.op1 = 29 then .ok ⟨imm_sub s f.d f.s1 f.imm16, k⟩
  else if f.op1 = 48 then wrapK k (br s ir)
  else if f.op1 = 58 then wrapK k (bcnd s f.d f.s1 ir)
  else if f.op1 = 60 then
    (if f.op2 = 36 then .ok ⟨ext s f.d f.s1 f.s2, k⟩
     else if f.op2 = 38 then .ok ⟨extu s f.d f.s1 f.s2, k⟩
     else if f.op2 = 40 then .ok ⟨mak s f.d f.s1 f.s2, k⟩
     else if f.op2 = 42 then .ok ⟨rot s f.d f.s1 f.s2, k⟩
     else .error .unknownOp)
  else if f.op1 = 61 then
    (if f.op2 = 5 then ldC s k f.d f.s1 f.s2 f.scaled
     else if f.op2 = 9 then stC s k f.d f.s1 f.s2 f.scaled
     else if f.op2 = 13 then .ok ⟨lda s f.d f.s1 f.s2 f.scaled, k⟩
     else if f.op2 = 28 then .ok ⟨add s f.d f.s1 f.s2, k⟩
     else if f.op2 = 29 then .ok ⟨sub s f.d f.s1 f.s2, k⟩
     else .error .unknownOp)
  else .error .unknownOp

/-- One iteration of the cache variant's main loop. -/
def stepC (cs : CState) : Except Fault CState :=
  (execC (preStep cs.core) cs.cache (fetchedIR cs.core) (decode (fetchedIR cs.core))).map
    (fun t => ⟨force_r0 t.core, t.cache⟩)

/-- Fuelled main loop of the cache variant. -/
def runC : Nat → CState → Except Fault CState
  | 0, cs => .ok cs
  | Nat.succ n, cs =>
    if cs.core.haltFlag then .ok cs else (stepC cs) >>= runC n

/-!  Specification-side definitions used to state the claims, and the
concrete states the witnesses evaluate at. -/

/-- The bcnd condition code as the code computes it, in spec terms:
bit 1 is the sign bit, bit 0 is 1 exactly when the 31 low-order bits of
the register are all zero (the value is 0 or 0x80000000). -/
def condFlag (v : Nat) : Nat :=
  2 * (v >>> 31) + (if v % 2147483648 = 0 then 1 else 0)

/-- The bcnd condition code as the claim words it: bit 1 is the sign
bit, bit 0 is 1 exactly when the register value is zero. -/
def claimedCondFlag (v : Nat) : Nat :=
  2 * (v >>> 31) + (if v = 0 then 1 else 0)

/-- Predicate on a step outcome: a completed instruction leaves
register 0 reading as zero. -/
def r0Cleared (r : Except Fault CoreState) : Prop :=
  match r with
  | .ok t => t.reg 0 = 0
  | .error _ => True

/-- Concrete state for the rotate round-trip evaluation: register 1
holds 1, everything else zero. -/
def csRot : CoreState := { initCore (fun _ => 0) with reg := updFn (fun _ => 0) 1 1 }

/-- Concrete state for the rotate-by-zero witness: register 1 holds
0xdeadbeef. -/
def csRotW : CoreState :=
  { initCore (fun _ => 0) with reg := updFn (fun _ => 0) 1 0xdeadbeef }

/-- Concrete state for the conditional-branch evaluations: the branch
sits at address 0 (xip = 0, fip already advanced to 4) and register 1
holds 0x80000000. -/
def csBcnd : CoreState :=
  { initCore (fun _ => 0) with fip := 4, reg := updFn (fun _ => 0) 1 2147483648 }

/-- Concrete state for the unconditional-branch witness: the branch
executes at address 64. -/
def csBr : CoreState := { initCore (fun _ => 0) with xip := 64 }

end Sim

namespace Sim

/-!  Basic reduction lemmas for `Except`. -/

/-- Mapping over an ok outcome. -/
theorem mapE_ok {α β : Type} (f : α → β) (a : α) :
    (Except.ok a : Except Fault α).map f = .ok (f a) := rfl

/-- Mapping over an error outcome. -/
theorem mapE_error {α β : Type} (f : α → β) (e : Fault) :
    (Except.error e : Except Fault α).map f = .error e := rfl

/-- Binding an ok outcome. -/
theorem bindE_ok {α β : Type} (f : α → Except Fault β) (a : α) :
    (Except.ok a : Except Fault α) >>= f = f a := rfl

/-- Binding an error outcome. -/
theorem bindE_error {α β : Type} (f : α → Except Fault β) (e : Fault) :
    (Except.error e : Except Fault α) >>= f = .error e := rfl

/-- Reading the updated entry of an updated table. -/
theorem updFn_same (f : Nat → Nat) (i v : Nat) : updFn f i v i = v := by
  simp [updFn]

/-- C4: after every instruction the main loop forces register 0 back to
zero, so every non-fatal step outcome has register 0 reading as 0, even
when the instruction targeted register 0. -/
theorem reg0_zero_after_step (s : CoreState) : r0Cleared (step s) := by
  simp only [step]
  cases hE : exec (preStep s) (fetchedIR s) (decode (fetchedIR s)) with
  | ok t => simp [mapE_ok, r0Cleared, force_r0, updFn]
  | error e => simp [mapE_error, r0Cleared]

/-- C5: executing rot with shift amount n = 0 writes the first source
register's value unchanged into the destination register. -/
theorem rot_by_zero (s : CoreState) (d s1 : Nat) (hv : s.reg s1 < 4294967296) :
    (rot s d s1 0).reg d = s.reg s1 := by
  have h1 : shl32 (s.reg s1) (32 - 0) = 0 := by
    simp [shl32, Nat.shiftLeft_eq, Nat.mul_mod_left]
  have h2 : ashr32 (s.reg s1) 0 = s.reg s1 := by
    unfold ashr32 norm32 toSigned
    simp only [pow_zero, Int.ediv_one]
    split <;> omega
  simp [rot, updFn, h1, h2]

/-- C5 witness: rotating 0xdeadbeef by zero returns it unchanged. -/
theorem rot_by_zero_witness :
    csRotW.reg 1 < 4294967296 ∧ (rot csRotW 2 1 0).reg 2 = csRotW.reg 1 :=
  ⟨by decide, rot_by_zero csRotW 2 1 (by decide)⟩

/-- C7: the claimed rotate round trip fails on the code.  Starting from
register 1 = 1, rotating right by 1 and then rotating the result by 31
yields 0xffffffff instead of the original 1, because the code's right
shift is the arithmetic shift of a signed int (its own block comment
says logical) and it smears the sign bit. -/
theorem rot_roundtrip_failure :
    csRot.reg 1 = 1 ∧
    (rot csRot 2 1 1).reg 2 = 2147483648 ∧
    (rot (rot csRot 2 1 1) 3 2 31).reg 3 = 4294967295 := by
  refine ⟨by decide, by decide, by decide⟩

/-- C6 counterexample: the image word 0x5c810010 given by the claim
decodes to primary opcode 0x17 = 23, which no dispatch arm recognizes,
so the run aborts through unknown_op instead of reaching the halt and
reporting the claimed statistics. -/
theorem scenario_image_counterexample :
    mainSim [0x5c810010, 0, 0, 0] 10 = .runResult (.error .unknownOp) ∧
    (decode 0x5c810010).op1 = 23 := by
  exact ⟨rfl, by decide⟩

/-- C6 amended: the described instruction (load register 1 through
register 0 plus immediate 0x10, then halt) is encoded by 0x14200010,
and on that image the run halts with instruction fetches = 2, data
words read = 1, data words written = 0, branches executed = 0. -/
theorem scenario_image_amended :
    reportStats (mainSim [0x14200010, 0, 0, 0] 10) = some (2, 1, 0, 0) := rfl

/-- Overflow behavior of the loader loop: as soon as the stored-word
count would pass INPUT_WORD_LIMIT = 255 with input remaining, it stops
with exit status 0. -/
theorem get_mem_go_overflow :
    ∀ (l : List Nat) (m : Int → Nat) (count : Nat),
      count ≤ 256 → 256 < count + l.length → get_mem_go m count l = .tooMany 0 := by
  intro l
  induction l with
  | nil => intro m count h1 h2; simp at h2; omega
  | cons w ws ih =>
    intro m count h1 h2
    unfold get_mem_go
    by_cases h : 255 < count
    · simp [h]
    · simp only [h, if_neg, if_false]
      exact ih _ _ (by omega) (by simp at h2; omega)

/-- C8 amended: more input words than the 256-word cap make the loader
report the overflow and end the process with exit status 0 (a clean
exit, not a non-zero code), before execution begins. -/
theorem load_overflow_amended (input : List Nat) (fuel : Nat)
    (h : 256 < input.length) :
    mainSim input fuel = .overflow 0 := by
  unfold mainSim get_mem
  rw [get_mem_go_overflow input _ 0 (by omega) (by simpa using h)]

/-- C8 amended witness: 300 input words overflow the loader. -/
theorem load_overflow_amended_witness :
    256 < (List.replicate 300 7).length ∧
    mainSim (List.replicate 300 7) 3 = .overflow 0 :=
  ⟨by rw [List.length_replicate]; omega,
   load_overflow_amended (List.replicate 300 7) 3 (by rw [List.length_replicate]; omega)⟩

set_option maxRecDepth 4000 in
/-- C8 counterexample: on 257 input words the process exit status is 0,
not the non-zero code the claim asserts. -/
theorem load_overflow_exit_code_counterexample :
    overflowCode (mainSim (List.replicate 257 0) 5) = some 0 := rfl


/-- C3: an executed unconditional branch at execute pointer P whose
26-bit field sign-extends to k words sets the fetch pointer to P + 4k
(as a 32-bit value), for positive and negative k alike, and increments
both the branch counter and the taken-branch counter. -/
theorem br_target (s : CoreState) (ir : Nat) (k : Int)
    (hd : ir &&& 67108863 ≠ 0)
    (hk1 : -33554432 ≤ k) (hk2 : k < 33554432)
    (hk3 : k % 67108864 = ((ir &&& 67108863 : Nat) : Int)) :
    ∃ t, br s ir = .ok t ∧
      t.fip = norm32 ((s.xip : Int) + 4 * k) ∧
      t.branches = s.branches + 1 ∧
      t.takenBranches = s.takenBranches + 1 := by
  have hlt : ir &&& 67108863 < 67108864 := by
    have h := Nat.and_le_right (n := ir) (m := 67108863)
    omega
  have hk : k = sext26 (ir &&& 67108863) := by
    unfold sext26
    split <;> omega
  unfold br
  rw [if_neg hd]
  exact ⟨_, rfl, by rw [hk], rfl, rfl⟩

/-- C3 witness: a branch at address 64 with the all-ones displacement
field (k = -1) lands on 60. -/
theorem br_target_witness :
    ∃ t, br csBr 0xC3FFFFFF = .ok t ∧
      t.fip = norm32 ((csBr.xip : Int) + 4 * (-1)) ∧
      t.branches = csBr.branches + 1 ∧
      t.takenBranches = csBr.takenBranches + 1 :=
  br_target csBr 0xC3FFFFFF (-1) (by decide) (by decide) (by decide) (by decide)

/-- C10: a load or store at any effective byte address, aligned or not,
accesses the memory word at index (address >> 2): the access completes
normally whenever that word index is in bounds (there is no alignment
check), and it is indistinguishable from the same access at the
containing aligned address 4 * (address >> 2). -/
theorem mem_access_word_index (s : CoreState) (a ri : Nat)
    (h0 : 0 ≤ wordIdx a) (h1 : wordIdx a < 262144) :
    (∃ t, read_mem s a ri = .ok t ∧ t.reg ri = s.mem (wordIdx a)) ∧
    (∃ t, write_mem s a ri = .ok t ∧ t.mem (wordIdx a) = s.reg ri) ∧
    read_mem s a ri = read_mem s (norm32 (4 * wordIdx a)) ri ∧
    write_mem s a ri = write_mem s (norm32 (4 * wordIdx a)) ri := by
  have hEq : wordIdx (norm32 (4 * wordIdx a)) = wordIdx a := by
    unfold wordIdx at h0 h1 ⊢
    generalize toSigned a = x at h0 h1 ⊢
    unfold norm32 toSigned
    split <;> omega
  refine ⟨?_, ?_, ?_, ?_⟩
  · unfold read_mem
    rw [if_pos ⟨h0, h1⟩]
    exact ⟨_, rfl, by simp [updFn]⟩
  · unfold write_mem
    rw [if_pos ⟨h0, h1⟩]
    exact ⟨_, rfl, by simp [updMemF]⟩
  · unfold read_mem
    rw [hEq]
  · unfold write_mem
    rw [hEq]

/-- C10 witness: the unaligned address 19 reads and writes the word at
index 4, exactly as its aligned base 16 does. -/
theorem mem_access_word_index_witness :
    (∃ t, read_mem (initCore (fun _ => 0)) 19 1 = .ok t ∧
       t.reg 1 = (initCore (fun _ => 0)).mem (wordIdx 19)) ∧
    (∃ t, write_mem (initCore (fun _ => 0)) 19 1 = .ok t ∧
       t.mem (wordIdx 19) = (initCore (fun _ => 0)).reg 1) ∧
    read_mem (initCore (fun _ => 0)) 19 1 =
      read_mem (initCore (fun _ => 0)) (norm32 (4 * wordIdx 19)) 1 ∧
    write_mem (initCore (fun _ => 0)) 19 1 =
      write_mem (initCore (fun _ => 0)) (norm32 (4 * wordIdx 19)) 1 :=
  mem_access_word_index (initCore (fun _ => 0)) 19 1 (by decide) (by decide)

/-- The flag the bcnd code computes coincides with `condFlag`: bit 1 is
the sign bit and bit 0 tests whether the 31 low-order bits vanish. -/
theorem flag_matches (v : Nat) (hv : v < 4294967296) :
    ((v >>> 31) <<< 1) ||| (if (v <<< 1) % 4294967296 = 0 then 1 else 0) = condFlag v := by
  have hs : v >>> 31 = 0 ∨ v >>> 31 = 1 := by
    rw [Nat.shiftRight_eq_div_pow]
    omega
  have hz : (v <<< 1) % 4294967296 = 0 ↔ v % 2147483648 = 0 := by
    rw [Nat.shiftLeft_eq, pow_one]
    omega
  unfold condFlag
  rcases hs with h | h <;> rw [h] <;> simp only [hz] <;>
    by_cases hc : v % 2147483648 = 0 <;> simp [hc]

/-- C2 amended: an executed bcnd computes the 2-bit condition code with
bit 1 the sign bit and bit 0 set exactly when the register's 31
low-order bits are zero (value 0 or 0x80000000); the branch counter
increments; if the mask bit indexed by the code is 1 the fetch pointer
becomes the execute pointer plus 4 times the sign-extended 16-bit
displacement and the taken-branch counter increments, else both stay
unchanged. -/
theorem bcnd_cond_amended (s : CoreState) (d s1 ir : Nat)
    (hd16 : ir &&& 65535 ≠ 0) (hv : s.reg s1 < 4294967296) :
    ∃ t, bcnd s d s1 ir = .ok t ∧
      t.branches = s.branches + 1 ∧
      (1 &&& (d >>> condFlag (s.reg s1)) = 1 →
        t.fip = norm32 ((s.xip : Int) + 4 * sext16 (ir &&& 65535)) ∧
        t.takenBranches = s.takenBranches + 1) ∧
      (1 &&& (d >>> condFlag (s.reg s1)) ≠ 1 →
        t.fip = s.fip ∧ t.takenBranches = s.takenBranches) := by
  simp only [bcnd]
  rw [if_neg hd16, flag_matches (s.reg s1) hv]
  by_cases hb : 1 &&& (d >>> condFlag (s.reg s1)) = 1
  · rw [if_pos hb]
    exact ⟨_, rfl, rfl, fun _ => ⟨rfl, rfl⟩, fun hn => absurd hb hn⟩
  · rw [if_neg hb]
    exact ⟨_, rfl, rfl, fun hyes => absurd hyes hb, fun _ => ⟨rfl, rfl⟩⟩

/-- C2 amended witness: bcnd with mask 8 on register value 0x80000000
(condition code 3) takes the branch. -/
theorem bcnd_cond_amended_witness :
    ∃ t, bcnd csBcnd 8 1 2 = .ok t ∧
      t.branches = csBcnd.branches + 1 ∧
      (1 &&& (8 >>> condFlag (csBcnd.reg 1)) = 1 →
        t.fip = norm32 ((csBcnd.xip : Int) + 4 * sext16 (2 &&& 65535)) ∧
        t.takenBranches = csBcnd.takenBranches + 1) ∧
      (1 &&& (8 >>> condFlag (csBcnd.reg 1)) ≠ 1 →
        t.fip = csBcnd.fip ∧ t.takenBranches = csBcnd.takenBranches) :=
  bcnd_cond_amended csBcnd 8 1 2 (by decide) (by decide)

/-- C2 counterexample: with register value 0x80000000 the claimed flag
is 2 and mask 8 has bit 2 clear, so per the claim the fetch pointer
(here 4) must stay and the taken counter must stay 0; the code instead
computes flag 3, takes the branch to 8 and counts it. -/
theorem bcnd_zero_flag_counterexample :
    1 &&& (8 >>> claimedCondFlag (csBcnd.reg 1)) = 0 ∧
    csBcnd.fip = 4 ∧ csBcnd.takenBranches = 0 ∧
    (bcnd csBcnd 8 1 2).toOption.map CoreState.fip = some 8 ∧
    (bcnd csBcnd 8 1 2).toOption.map CoreState.takenBranches = some 1 := by
  exact ⟨by decide, rfl, rfl, by decide, by decide⟩



/-!  Projections of the access-counter update at the head of
cache_access: only cache_reads / cache_writes change there. -/

/-- The counter head of cache_access keeps the valid bits. -/
theorem c0_valid (c : Cache) (ty : Nat) :
    (if ty = 0 then { c with cache_reads := c.cache_reads + 1 }
     else { c with cache_writes := c.cache_writes + 1 }).valid = c.valid := by
  split <;> rfl

/-- The counter head of cache_access keeps the dirty bits. -/
theorem c0_dirty (c : Cache) (ty : Nat) :
    (if ty = 0 then { c with cache_reads := c.cache_reads + 1 }
     else { c with cache_writes := c.cache_writes + 1 }).dirty = c.dirty := by
  split <;> rfl

/-- The counter head of cache_access keeps the tags. -/
theorem c0_tag (c : Cache) (ty : Nat) :
    (if ty = 0 then { c with cache_reads := c.cache_reads + 1 }
     else { c with cache_writes := c.cache_writes + 1 }).tag = c.tag := by
  split <;> rfl

/-- The counter head of cache_access keeps the replacement state. -/
theorem c0_lru (c : Cache) (ty : Nat) :
    (if ty = 0 then { c with cache_reads := c.cache_reads + 1 }
     else { c with cache_writes := c.cache_writes + 1 }).lru = c.lru := by
  split <;> rfl

/-- The counter head of cache_access keeps the miss counter. -/
theorem c0_misses (c : Cache) (ty : Nat) :
    (if ty = 0 then { c with cache_reads := c.cache_reads + 1 }
     else { c with cache_writes := c.cache_writes + 1 }).misses = c.misses := by
  split <;> rfl

/-- The counter head of cache_access keeps the write-back counter. -/
theorem c0_write_backs (c : Cache) (ty : Nat) :
    (if ty = 0 then { c with cache_reads := c.cache_reads + 1 }
     else { c with cache_writes := c.cache_writes + 1 }).write_backs = c.write_backs := by
  split <;> rfl

/-- C1: on a cache_access that misses in both banks of its set, the
miss counter increments by one; the victim bank is bank 0 if invalid,
else bank 1 if invalid, else the bank other than the one the set's
replacement state recorded as most recently serviced; the write-back
counter increments exactly when the victim was valid and dirty; and
afterwards the victim is valid, holds the address's tag, is dirty
exactly when the access was a write, and the replacement state records
the victim bank. -/
theorem cache_miss_path (c : Cache) (address ty : Nat)
    (h0 : ¬(c.valid 0 (setIndex address) ≠ 0 ∧ addrTag address = c.tag 0 (setIndex address)))
    (h1 : ¬(c.valid 1 (setIndex address) ≠ 0 ∧ addrTag address = c.tag 1 (setIndex address)))
    (hlru : c.lru (setIndex address) ≤ 1) :
    (cache_access c address ty).misses = c.misses + 1 ∧
    (cache_access c address ty).write_backs = c.write_backs +
      (if c.valid (victimWay c address) (setIndex address) ≠ 0 ∧
          c.dirty (victimWay c address) (setIndex address) ≠ 0 then 1 else 0) ∧
    (cache_access c address ty).valid (victimWay c address) (setIndex address) = 1 ∧
    (cache_access c address ty).tag (victimWay c address) (setIndex address) = addrTag address ∧
    ((cache_access c address ty).dirty (victimWay c address) (setIndex address) = 1 ↔ ty = 1) ∧
    (cache_access c address ty).lru (setIndex address) = victimWay c address := by
  have hb : (if c.valid 0 (setIndex address) = 0 then (0 : Nat)
             else if c.valid 1 (setIndex address) = 0 then 1
             else if c.lru (setIndex address) ≠ 0 then 0 else 1) = victimWay c address := by
    unfold victimWay
    split_ifs <;> omega
  unfold cache_access cacheTail
  simp only [c0_valid, c0_dirty, c0_tag, c0_lru, c0_misses, c0_write_backs]
  rw [if_neg h0, if_neg h1]
  simp only [hb]
  refine ⟨?_, ?_, ?_, ?_, ?_, ?_⟩
  · split_ifs <;> rfl
  · split_ifs <;> simp
  · split_ifs <;> simp [upd2]
  · split_ifs <;> simp [upd2]
  · split_ifs with hwb hty <;> simp_all [upd2, updFn]
  · split_ifs <;> simp [updFn]

/-- C1 witness: a write to address 291 on the freshly initialized cache
misses, fills bank 0, installs the tag, dirties the line and records
bank 0 in the replacement state with no write-back. -/
theorem cache_miss_path_witness :
    (cache_access cache_init 291 1).misses = cache_init.misses + 1 ∧
    (cache_access cache_init 291 1).write_backs = cache_init.write_backs +
      (if cache_init.valid (victimWay cache_init 291) (setIndex 291) ≠ 0 ∧
          cache_init.dirty (victimWay cache_init 291) (setIndex 291) ≠ 0 then 1 else 0) ∧
    (cache_access cache_init 291 1).valid (victimWay cache_init 291) (setIndex 291) = 1 ∧
    (cache_access cache_init 291 1).tag (victimWay cache_init 291) (setIndex 291) = addrTag 291 ∧
    ((cache_access cache_init 291 1).dirty (victimWay cache_init 291) (setIndex 291) = 1 ↔ (1 : Nat) = 1) ∧
    (cache_access cache_init 291 1).lru (setIndex 291) = victimWay cache_init 291 :=
  cache_miss_path cache_init 291 1 (by decide) (by decide) (by decide)

/-!  C9: the cache-enabled variant is the cacheless core plus a cache
directory that never feeds back into the core. -/

/-- Attaching an unchanged cache does not change the core outcome. -/
theorem wrapK_core (k : Cache) (r : Except Fault CoreState) :
    (wrapK k r).map CState.core = r := by
  cases r <;> rfl

/-- imm_ld of the cache variant projects to imm_ld. -/
theorem imm_ldC_core (s : CoreState) (k : Cache) (d s1 imm16 : Nat) :
    (imm_ldC s k d s1 imm16).map CState.core = imm_ld s d s1 imm16 := by
  unfold imm_ldC imm_ld
  cases read_mem s (add32 (s.reg s1) imm16) d <;> rfl

/-- imm_st of the cache variant projects to imm_st. -/
theorem imm_stC_core (s : CoreState) (k : Cache) (d s1 imm16 : Nat) :
    (imm_stC s k d s1 imm16).map CState.core = imm_st s d s1 imm16 := by
  unfold imm_stC imm_st
  cases write_mem s (add32 (s.reg s1) imm16) d <;> rfl

/-- ld of the cache variant projects to ld. -/
theorem ldC_core (s : CoreState) (k : Cache) (d s1 s2 scaled : Nat) :
    (ldC s k d s1 s2 scaled).map CState.core = ld s d s1 s2 scaled := by
  unfold ldC ld
  by_cases h : scaled ≠ 0
  · rw [if_pos h, if_pos h]
    cases read_mem s (add32 (s.reg s1) (shl32 (s.reg s2) 2)) d <;> rfl
  · rw [if_neg h, if_neg h]
    cases read_mem s (add32 (s.reg s1) (s.reg s2)) d <;> rfl

/-- st of the cache variant projects to st. -/
theorem stC_core (s : CoreState) (k : Cache) (d s1 s2 scaled : Nat) :
    (stC s k d s1 s2 scaled).map CState.core = st s d s1 s2 scaled := by
  unfold stC st
  by_cases h : scaled ≠ 0
  · rw [if_pos h, if_pos h]
    cases write_mem s (add32 (s.reg s1) (shl32 (s.reg s2) 2)) d <;> rfl
  · rw [if_neg h, if_neg h]
    cases write_mem s (add32 (s.reg s1) (s.reg s2)) d <;> rfl

/-- The dispatch of the cache variant projects to the dispatch of the
cacheless variant, whatever the cache contents. -/
theorem execC_core (s : CoreState) (k : Cache) (ir : Nat) (f : Fields) :
    (execC s k ir f).map CState.core = exec s ir f := by
  unfold execC exec
  by_cases h1 : f.op1 = 0
  · rw [if_pos h1, if_pos h1]; rfl
  rw [if_neg h1, if_neg h1]
  by_cases h2 : f.op1 = 5
  · rw [if_pos h2, if_pos h2]; exact imm_ldC_core s k f.d f.s1 f.imm16
  rw [if_neg h2, if_neg h2]
  by_cases h3 : f.op1 = 9
  · rw [if_pos h3, if_pos h3]; exact imm_stC_core s k f.d f.s1 f.imm16
  rw [if_neg h3, if_neg h3]
  by_cases h4 : f.op1 = 13
  · rw [if_pos h4, if_pos h4]; rfl
  rw [if_neg h4, if_neg h4]
  by_cases h5 : f.op1 = 28
  · rw [if_pos h5, if_pos h5]; rfl
  rw [if_neg h5, if_neg h5]
  by_cases h6 : f.op1 = 29
  · rw [if_pos h6, if_pos h6]; rfl
  rw [if_neg h6, if_neg h6]
  by_cases h7 : f.op1 = 48
  · rw [if_pos h7, if_pos h7]; exact wrapK_core k (br s ir)
  rw [if_neg h7, if_neg h7]
  by_cases h8 : f.op1 = 58
  · rw [if_pos h8, if_pos h8]; exact wrapK_core k (bcnd s f.d f.s1 ir)
  rw [if_neg h8, if_neg h8]
  by_cases h9 : f.op1 = 60
  · rw [if_pos h9, if_pos h9]
    by_cases g1 : f.op2 = 36
    · rw [if_pos g1, if_pos g1]; rfl
    rw [if_neg g1, if_neg g1]
    by_cases g2 : f.op2 = 38
    · rw [if_pos g2, if_pos g2]; rfl
    rw [if_neg g2, if_neg g2]
    by_cases g3 : f.op2 = 40
    · rw [if_pos g3, if_pos g3]; rfl
    rw [if_neg g3, if_neg g3]
    by_cases g4 : f.op2 = 42
    · rw [if_pos g4, if_pos g4]; rfl
    rw [if_neg g4, if_neg g4]; rfl
  rw [if_neg h9, if_neg h9]
  by_cases h10 : f.op1 = 61
  · rw [if_pos h10, if_pos h10]
    by_cases g1 : f.op2 = 5
    · rw [if_pos g1, if_pos g1]; exact ldC_core s k f.d f.s1 f.s2 f.scaled
    rw [if_neg g1, if_neg g1]
    by_cases g2 : f.op2 = 9
    · rw [if_pos g2, if_pos g2]; exact stC_core s k f.d f.s1 f.s2 f.scaled
    rw [if_neg g2, if_neg g2]
    by_cases g3 : f.op2 = 13
    · rw [if_pos g3, if_pos g3]; rfl
    rw [if_neg g3, if_neg g3]
    by_cases g4 : f.op2 = 28
    · rw [if_pos g4, if_pos g4]; rfl
    rw [if_neg g4, if_neg g4]
    by_cases g5 : f.op2 = 29
    · rw [if_pos g5, if_pos g5]; rfl
    rw [if_neg g5, if_neg g5]; rfl
  rw [if_neg h10, if_neg h10]; rfl

/-- Projecting the core through the loop epilogue commutes with map. -/
theorem map_core_force (rC : Except Fault CState) :
    (rC.map (fun t => (⟨force_r0 t.core, t.cache⟩ : CState))).map CState.core
      = (rC.map CState.core).map force_r0 := by
  cases rC <;> rfl

/-- One step of the cache variant projects to one cacheless step. -/
theorem stepC_core (cs : CState) : (stepC cs).map CState.core = step cs.core := by
  unfold stepC step
  rw [map_core_force, execC_core]

/-- C9: for every fuel bound and start state, running the cache-enabled
variant and projecting away the cache directory gives exactly the run
of the cacheless variant: same faults, same final registers, memory,
pointers and execution counters — the cache state never feeds back. -/
theorem cache_variant_core_equiv :
    ∀ (n : Nat) (cs : CState), (runC n cs).map CState.core = run n cs.core := by
  intro n
  induction n with
  | zero => intro cs; rfl
  | succ n ih =>
    intro cs
    simp only [runC, run]
    by_cases hh : cs.core.haltFlag
    · rw [if_pos hh, if_pos hh]; rfl
    · rw [if_neg hh, if_neg hh]
      cases hS : stepC cs with
      | error e =>
        have h2 := stepC_core cs
        rw [hS] at h2
        rw [mapE_error] at h2
        rw [bindE_error, ← h2, bindE_error]
        rfl
      | ok t =>
        have h2 := stepC_core cs
        rw [hS] at h2
        rw [mapE_ok] at h2
        rw [bindE_ok, ← h2, bindE_ok]
        exact ih t


end Sim
